import Mathlib

/-!
Verification of `build.py` from treyhunner/wasm-build.

The script orchestrates a CPython-to-WebAssembly build: it resolves
configuration from CLI flags and `~/.python-wasm.ini`, sequences build
stages keyed on output-directory existence, fingerprints browser
artifacts with MD5-based content hashes, rewrites the generated loader
script, and zips the node runtime files.

This file gives a shallow embedding of the script's pure logic:
  * `md5hex` — the MD5 digest (as used by `hashlib.md5(...).hexdigest()`),
  * `fingerprint_filename` — content-hash filename derivation,
  * `re_sub_quoted` / `str_replace` — the loader-script rewriting step,
  * `prepare_browser_files` — the browser packaging write sequence,
  * `parse_args` — configuration resolution,
  * `main` — the stage orchestrator over an abstract world state,
  * `prepare_node_files` — the runtime archive walker,
  * `shell_source` — the environment-snapshot importer.
-/

set_option maxRecDepth 4000

/-! ## MD5 (the content hash used by `fingerprint_filename`)

A byte-level translation of the MD5 algorithm (RFC 1321), operating on
`List Nat` of byte values with explicit reduction modulo `2 ^ 32`.
-/

/-- Truncate to a 32-bit word, mirroring fixed-width overflow. -/
def u32 (x : Nat) : Nat := x % 4294967296

/-- 32-bit left rotation. -/
def rotl32 (x n : Nat) : Nat := u32 ((x <<< n) ||| (x >>> (32 - n)))

/-- MD5 round constants `K[0..63]`. -/
def md5K : List Nat :=
  [0xd76aa478, 0xe8c7b756, 0x242070db, 0xc1bdceee,
   0xf57c0faf, 0x4787c62a, 0xa8304613, 0xfd469501,
   0x698098d8, 0x8b44f7af, 0xffff5bb1, 0x895cd7be,
   0x6b901122, 0xfd987193, 0xa679438e, 0x49b40821,
   0xf61e2562, 0xc040b340, 0x265e5a51, 0xe9b6c7aa,
   0xd62f105d, 0x02441453, 0xd8a1e681, 0xe7d3fbc8,
   0x21e1cde6, 0xc33707d6, 0xf4d50d87, 0x455a14ed,
   0xa9e3e905, 0xfcefa3f8, 0x676f02d9, 0x8d2a4c8a,
   0xfffa3942, 0x8771f681, 0x6d9d6122, 0xfde5380c,
   0xa4beea44, 0x4bdecfa9, 0xf6bb4b60, 0xbebfbc70,
   0x289b7ec6, 0xeaa127fa, 0xd4ef3085, 0x04881d05,
   0xd9d4d039, 0xe6db99e5, 0x1fa27cf8, 0xc4ac5665,
   0xf4292244, 0x432aff97, 0xab9423a7, 0xfc93a039,
   0x655b59c3, 0x8f0ccc92, 0xffeff47d, 0x85845dd1,
   0x6fa87e4f, 0xfe2ce6e0, 0xa3014314, 0x4e0811a1,
   0xf7537e82, 0xbd3af235, 0x2ad7d2bb, 0xeb86d391]

/-- MD5 per-round rotation amounts `s[0..63]`. -/
def md5S : List Nat :=
  [7, 12, 17, 22, 7, 12, 17, 22, 7, 12, 17, 22, 7, 12, 17, 22,
   5, 9, 14, 20, 5, 9, 14, 20, 5, 9, 14, 20, 5, 9, 14, 20,
   4, 11, 16, 23, 4, 11, 16, 23, 4, 11, 16, 23, 4, 11, 16, 23,
   6, 10, 15, 21, 6, 10, 15, 21, 6, 10, 15, 21, 6, 10, 15, 21]

/-- MD5 nonlinear round function (complement taken within 32 bits). -/
def md5F (i b c d : Nat) : Nat :=
  if i < 16 then (b &&& c) ||| ((b ^^^ 4294967295) &&& d)
  else if i < 32 then (d &&& b) ||| ((d ^^^ 4294967295) &&& c)
  else if i < 48 then b ^^^ c ^^^ d
  else c ^^^ (b ||| (d ^^^ 4294967295))

/-- MD5 message-word index schedule. -/
def md5g (i : Nat) : Nat :=
  if i < 16 then i
  else if i < 32 then (5 * i + 1) % 16
  else if i < 48 then (3 * i + 5) % 16
  else (7 * i) % 16

/-- The four-word MD5 chaining state. -/
structure MD5State where
  a : Nat
  b : Nat
  c : Nat
  d : Nat
deriving DecidableEq

/-- One MD5 round on state `st` using message words `m`. -/
def md5Step (m : List Nat) (st : MD5State) (i : Nat) : MD5State :=
  let f := u32 (md5F i st.b st.c st.d + st.a + md5K.getD i 0 + m.getD (md5g i) 0)
  ⟨st.d, u32 (st.b + rotl32 f (md5S.getD i 0)), st.b, st.c⟩

/-- Process one 512-bit chunk (16 message words) and add into the state. -/
def md5Chunk (st : MD5State) (m : List Nat) : MD5State :=
  let r := (List.range 64).foldl (md5Step m) st
  ⟨u32 (st.a + r.a), u32 (st.b + r.b), u32 (st.c + r.c), u32 (st.d + r.d)⟩

/-- Read a little-endian 32-bit word from the head of a byte list. -/
def bytesToWord (bs : List Nat) : Nat :=
  bs.getD 0 0 + 256 * bs.getD 1 0 + 65536 * bs.getD 2 0 + 16777216 * bs.getD 3 0

/-- Split a 64-byte chunk into its 16 little-endian message words. -/
def chunkWords (bs : List Nat) : List Nat :=
  (List.range 16).map (fun j => bytesToWord (bs.drop (4 * j)))

/-- Fold the chunk function over consecutive 64-byte blocks (fuel-indexed). -/
def md5Blocks : Nat → List Nat → MD5State → MD5State
  | _, [], st => st
  | 0, _, st => st
  | fuel + 1, bs, st => md5Blocks fuel (bs.drop 64) (md5Chunk st (chunkWords (bs.take 64)))

/-- Little-endian byte expansion of `n` into `count` bytes. -/
def leBytes (n count : Nat) : List Nat :=
  (List.range count).map (fun i => (n >>> (8 * i)) % 256)

/-- MD5 padding: a `0x80` byte, zeros to 56 mod 64, then the 64-bit
little-endian bit length. -/
def md5Pad (msg : List Nat) : List Nat :=
  let len := msg.length
  let zeros := (56 + 64 - ((len + 1) % 64)) % 64
  msg ++ [128] ++ List.replicate zeros 0 ++ leBytes ((8 * len) % 18446744073709551616) 8

/-- The MD5 initialization vector. -/
def md5Init : MD5State := ⟨0x67452301, 0xefcdab89, 0x98badcfe, 0x10325476⟩

/-- Lowercase hexadecimal digit. -/
def hexDigit (n : Nat) : Char :=
  if n < 10 then Char.ofNat (48 + n) else Char.ofNat (87 + n)

/-- A 32-bit word rendered as 8 hex characters, byte-wise little-endian. -/
def wordHexLE (w : Nat) : List Char :=
  (leBytes w 4).foldr (fun b acc => hexDigit (b / 16) :: hexDigit (b % 16) :: acc) []

/-- `md5hex msg` is `hashlib.md5(msg).hexdigest()`: the 32-character
lowercase hex digest of the byte list `msg`. -/
def md5hex (msg : List Nat) : String :=
  let st := md5Blocks (msg.length / 64 + 2) (md5Pad msg) md5Init
  String.mk (wordHexLE st.a ++ wordHexLE st.b ++ wordHexLE st.c ++ wordHexLE st.d)

/-- Byte values of an ASCII string (as `read_bytes` yields for the
ASCII texts handled here). -/
def strBytes (s : String) : List Nat := s.data.map Char.toNat

/-- Standard test vector: the MD5 digest of the empty message. -/
theorem md5hex_nil : md5hex [] = "d41d8cd98f00b204e9800998ecf8427e" := by decide

/-- Standard test vector: the MD5 digest of `"abc"`. -/
theorem md5hex_abc : md5hex (strBytes "abc") = "900150983cd24fb0d6963f7d28e17f72" := by
  decide

/-! ## Filename fingerprinting (`fingerprint_filename`, build.py lines 50-54)

`path.with_stem(f"{path.stem}.{checksum}")` where
`checksum = md5(path.read_bytes()).hexdigest()[:12]`.
`pathStem`/`pathSuffix` model `pathlib`'s stem/suffix split at the last
dot of the filename (the names used here all have a simple extension).
-/

/-- Index of the last `'.'` in a character list, if any. -/
def lastDotIdx : List Char → Option Nat
  | [] => none
  | c :: cs =>
    match lastDotIdx cs with
    | some i => some (i + 1)
    | none => if c = '.' then some 0 else none

/-- `pathlib.Path.stem`: the filename up to its last dot. -/
def pathStem (name : String) : String :=
  match lastDotIdx name.data with
  | some i => String.mk (name.data.take i)
  | none => name

/-- `pathlib.Path.suffix`: the extension from the last dot, inclusive. -/
def pathSuffix (name : String) : String :=
  match lastDotIdx name.data with
  | some i => String.mk (name.data.drop i)
  | none => ""

/-- `hexdigest()[:12]`: the first 12 hex characters of the MD5 digest. -/
def md5hex12 (bytes : List Nat) : String :=
  String.mk ((md5hex bytes).data.take 12)

/-- `fingerprint_filename`: insert the 12-character MD5 prefix of the
file's bytes as an extra dot-separated segment before the extension. -/
def fingerprint_filename (name : String) (bytes : List Nat) : String :=
  pathStem name ++ "." ++ md5hex12 bytes ++ pathSuffix name

/-! ## Loader-script rewriting (build.py lines 162-172)

`re.sub(rf'"{path.name}"', rf'"{url_prefix}{new_path.name}"', text)`
uses the artifact filename as a regular expression.  For the names that
occur here (`python.data`, `python.wasm`) the only metacharacter is the
dot, which matches any character; `re_sub_quoted` therefore scans left
to right replacing each non-overlapping quoted match of the
dot-wildcard pattern.  `str_replace` models Python's exact
`str.replace`, used to strip the `locateFile` call.
-/

/-- One pattern character against one subject character: in the regex a
literal `'.'` matches any character. -/
def dotMatch (p c : Char) : Bool := p = '.' || p = c

/-- Match the dot-wildcard pattern against a prefix of `s`, returning
the remainder on success. -/
def wildMatchAt : List Char → List Char → Option (List Char)
  | [], s => some s
  | _ :: _, [] => none
  | p :: ps, c :: cs => if dotMatch p c then wildMatchAt ps cs else none

/-- Left-to-right, non-overlapping substitution of the dot-wildcard
pattern (fuel-indexed scan over the subject). -/
def reSubAux (pat rep : List Char) : Nat → List Char → List Char
  | 0, s => s
  | _ + 1, [] => []
  | fuel + 1, c :: cs =>
    match wildMatchAt pat (c :: cs) with
    | some rest => rep ++ reSubAux pat rep fuel rest
    | none => c :: reSubAux pat rep fuel cs

/-- `re.sub(rf'"{name}"', rf'"{rep}"', s)` for the filename patterns of
`prepare_browser_files`: both pattern and replacement are wrapped in
literal double quotes. -/
def re_sub_quoted (name rep s : String) : String :=
  String.mk (reSubAux ('"' :: name.data ++ ['"']) ('"' :: rep.data ++ ['"'])
    s.data.length s.data)

/-- Match an exact pattern against a prefix of `s`, returning the
remainder on success. -/
def exactMatchAt : List Char → List Char → Option (List Char)
  | [], s => some s
  | _ :: _, [] => none
  | p :: ps, c :: cs => if p = c then exactMatchAt ps cs else none

/-- Left-to-right, non-overlapping exact replacement (fuel-indexed). -/
def replaceAux (pat rep : List Char) : Nat → List Char → List Char
  | 0, s => s
  | _ + 1, [] => []
  | fuel + 1, c :: cs =>
    match exactMatchAt pat (c :: cs) with
    | some rest => rep ++ replaceAux pat rep fuel rest
    | none => c :: replaceAux pat rep fuel cs

/-- Python's `s.replace(pat, rep)`. -/
def str_replace (s pat rep : String) : String :=
  String.mk (replaceAux pat.data rep.data s.data.length s.data)

/-- Does `s` contain `pat` as a (contiguous) substring? -/
def containsAt (pat : List Char) : List Char → Bool
  | [] => (exactMatchAt pat []).isSome
  | c :: cs => (exactMatchAt pat (c :: cs)).isSome || containsAt pat cs

/-- Substring test on strings. -/
def containsStr (s pat : String) : Bool := containsAt pat.data s.data

/-! ## Browser packaging (`prepare_browser_files`, build.py lines 152-177)

The function reads `python.data`, `python.wasm` and `python.js` from the
browser build directory, and performs this exact write sequence (the
loop body runs once for the data file and once for the wasm file, and
the `for`/`else` clause runs after the loop):

  1. copy `python.data`  -> its fingerprinted name
  2. write the loader rewritten for the data file -> the loader's
     fingerprinted name (the fingerprint of the ORIGINAL loader bytes,
     since the on-disk `python.js` is never modified)
  3. copy `python.wasm`  -> its fingerprinted name
  4. write the loader rewritten for data and wasm -> the same
     fingerprinted loader name
  5. copy `python.wasm`  -> its fingerprinted name (again)
  6. copy the ORIGINAL `python.js` -> the same fingerprinted loader
     name, overwriting the rewritten text of step 4

The result is the ordered list of (filename, content) writes; the
directory's final state for a name is the last write to it.
-/

/-- Content written to a file: raw bytes or text. -/
inductive Entry where
  | bin : List Nat → Entry
  | txt : String → Entry
deriving DecidableEq

/-- The three inputs `prepare_browser_files` reads from the browser
build directory. -/
structure BrowserDir where
  dataBytes : List Nat
  wasmBytes : List Nat
  jsText : String
deriving DecidableEq

/-- The exact substring stripped from the loader so the wasm URL stays
relative (build.py lines 169-172). -/
def locateFileLine : String := "wasmBinaryFile=locateFile(wasmBinaryFile)"

/-- The ordered write sequence performed by `prepare_browser_files`. -/
def prepare_browser_files (dir : BrowserDir) (urlPrefixVal : String) :
    List (String × Entry) :=
  let dataNew := fingerprint_filename "python.data" dir.dataBytes
  let wasmNew := fingerprint_filename "python.wasm" dir.wasmBytes
  let jsNew := fingerprint_filename "python.js" (strBytes dir.jsText)
  let c1 := str_replace (re_sub_quoted "python.data" (urlPrefixVal ++ dataNew) dir.jsText)
    locateFileLine ""
  let c2 := str_replace (re_sub_quoted "python.wasm" (urlPrefixVal ++ wasmNew) c1)
    locateFileLine ""
  [(dataNew, Entry.bin dir.dataBytes), (jsNew, Entry.txt c1),
   (wasmNew, Entry.bin dir.wasmBytes), (jsNew, Entry.txt c2),
   (wasmNew, Entry.bin dir.wasmBytes), (jsNew, Entry.txt dir.jsText)]

/-- Final content stored under `name` after a sequence of writes: the
last write to that name wins. -/
def finalContent (writes : List (String × Entry)) (name : String) : Option Entry :=
  writes.foldl (fun acc w => if w.1 = name then some w.2 else acc) none

/-! ## Claims about fingerprinting and browser packaging -/

/-- In every run of `prepare_browser_files`, the last write to the
loader's fingerprinted filename is the `for`/`else` copy of the
original, unrewritten loader text. -/
theorem prepare_browser_files_final_js (dir : BrowserDir) (urlPrefixVal : String) :
    finalContent (prepare_browser_files dir urlPrefixVal)
      (fingerprint_filename "python.js" (strBytes dir.jsText))
      = some (Entry.txt dir.jsText) := by
  simp [prepare_browser_files, finalContent]

/-- C3: the fingerprinted filename is a pure function of the file's
bytes: the first 12 hex characters of the MD5 digest are inserted as an
extra dot-separated segment before the extension, so any bytes whose
hash prefix is `a1b2c3d4e5f6` give `python.a1b2c3d4e5f6.wasm` for a file
named `python.wasm`, and equal bytes always give equal names. -/
theorem fingerprint_filename_md5_segment (b₁ b₂ : List Nat) (h : b₁ = b₂) :
    fingerprint_filename "python.wasm" b₁ = "python." ++ md5hex12 b₁ ++ ".wasm" ∧
    (∀ name, fingerprint_filename name b₁
      = pathStem name ++ "." ++ md5hex12 b₁ ++ pathSuffix name) ∧
    fingerprint_filename "python.wasm" b₁ = fingerprint_filename "python.wasm" b₂ := by
  have h1 : pathStem "python.wasm" = "python" := by decide
  have h2 : pathSuffix "python.wasm" = ".wasm" := by decide
  have h3 : ("python" ++ "." : String) = "python." := by decide
  refine ⟨?_, fun name => rfl, by rw [h]⟩
  unfold fingerprint_filename
  rw [h1, h2, h3]

/-- Witness for C3 at the concrete bytes `[1, 2, 3]`. -/
theorem fingerprint_filename_md5_segment_witness :
    fingerprint_filename "python.wasm" [1, 2, 3]
      = "python." ++ md5hex12 [1, 2, 3] ++ ".wasm" ∧
    (∀ name, fingerprint_filename name [1, 2, 3]
      = pathStem name ++ "." ++ md5hex12 [1, 2, 3] ++ pathSuffix name) ∧
    fingerprint_filename "python.wasm" [1, 2, 3]
      = fingerprint_filename "python.wasm" [1, 2, 3] :=
  fingerprint_filename_md5_segment [1, 2, 3] [1, 2, 3] rfl

/-- C1 fails on the code: the final `for`/`else` copy overwrites the
rewritten loader with the original text under the same fingerprinted
name, so after `prepare_browser_files` the stored loader still contains
the quoted original filenames and no prefixed fingerprinted name.  The
first conjunct shows the clobber for every input; the rest evaluate the
concrete failing input
`python.data = [0]`, `python.wasm = [1]`,
`python.js = a="python.data";b="python.wasm";`, prefix `/s/`. -/
theorem prepare_browser_files_keeps_original_names :
    (∀ (dir : BrowserDir) (urlPrefixVal : String),
      finalContent (prepare_browser_files dir urlPrefixVal)
        (fingerprint_filename "python.js" (strBytes dir.jsText))
        = some (Entry.txt dir.jsText)) ∧
    containsStr "a=\"python.data\";b=\"python.wasm\";" "\"python.data\"" = true ∧
    containsStr "a=\"python.data\";b=\"python.wasm\";" "\"python.wasm\"" = true ∧
    containsStr "a=\"python.data\";b=\"python.wasm\";"
      ("/s/" ++ fingerprint_filename "python.data" [0]) = false ∧
    containsStr "a=\"python.data\";b=\"python.wasm\";"
      ("/s/" ++ fingerprint_filename "python.wasm" [1]) = false := by
  refine ⟨prepare_browser_files_final_js, by decide, by decide, by decide, by decide⟩

/-- C9: the rewriting step treats the artifact filename as a regular
expression in which the dot matches any character, so a quoted string
differing from `python.data` only at the dot position (here
`"pythonXdata"`) is also replaced with the prefixed fingerprinted name:
inside `prepare_browser_files` the loader text written after the data
iteration has the replacement, and the match is gone. -/
theorem re_sub_dot_wildcard_rewrites :
    (prepare_browser_files ⟨[7], [8], "x=\"pythonXdata\";"⟩ "/s/").get? 1
      = some (fingerprint_filename "python.js" (strBytes "x=\"pythonXdata\";"),
          Entry.txt ("x=\"/s/" ++ fingerprint_filename "python.data" [7] ++ "\";")) ∧
    containsStr
      (re_sub_quoted "python.data" ("/s/" ++ fingerprint_filename "python.data" [7])
        "x=\"pythonXdata\";")
      "pythonXdata" = false := by
  exact ⟨by decide, by decide⟩

/-! ## Configuration resolution (`parse_args`, build.py lines 65-101)

`argparse` leaves `--cpython`/`--emsdk` as `None` when absent (any
supplied path is a truthy `Path`), and `--url-prefix` defaults to the
empty string.  The resolution loop runs over
`["cpython", "emsdk", "url_prefix"]` in order: when the argument value
is falsy it falls back to the `wasm` section of `~/.python-wasm.ini`
(modelled as an association list), and exits with the
`Must supply ...` message when the key is absent there too.  Note that
the falsy check makes an empty `url_prefix` indistinguishable from an
absent one.
-/

/-- First-match association-list lookup (both `configparser` sections
and environment tables are modelled this way). -/
def assocFind : List (String × String) → String → Option String
  | [], _ => none
  | (k, v) :: rest, key => if key = k then some v else assocFind rest key

/-- The argument record produced by `argparse` before the fallback
loop runs. -/
structure CliArgs where
  cpython : Option String
  emsdk : Option String
  urlPrefixVal : String
  pythonVersion : Option String
  setupEmsdkVersion : Option String
deriving DecidableEq

/-- The fully resolved configuration after the fallback loop. -/
structure ResolvedArgs where
  cpython : String
  emsdk : String
  urlPrefixVal : String
  pythonVersion : Option String
  setupEmsdkVersion : Option String
deriving DecidableEq

/-- `option.replace('_', '-')`. -/
def dashify (s : String) : String :=
  String.mk (s.data.map (fun c => if c = '_' then '-' else c))

/-- The `sys.exit` message for a required option missing from both the
command line and the configuration file (build.py lines 97-100). -/
def missingMsg (opt : String) : String :=
  "Must supply --" ++ dashify opt ++ " directory or " ++ opt
    ++ " option in ~/.python-wasm.ini"

/-- One iteration of the fallback loop: keep a truthy CLI value, else
fall back to the config key, else exit with `missingMsg`. -/
def resolveOpt (truthy : Bool) (cliVal : String)
    (config : List (String × String)) (opt : String) : Except String String :=
  if truthy then Except.ok cliVal
  else
    match assocFind config opt with
    | some v => Except.ok v
    | none => Except.error (missingMsg opt)

/-- `parse_args`: resolve the three required options in order, checking
truthiness exactly as `if not getattr(args, option)` does (`None` and
the empty string are falsy, any `Path` is truthy). -/
def parse_args (args : CliArgs) (config : List (String × String)) :
    Except String ResolvedArgs :=
  match resolveOpt args.cpython.isSome (args.cpython.getD "") config "cpython" with
  | Except.error e => Except.error e
  | Except.ok cp =>
    match resolveOpt args.emsdk.isSome (args.emsdk.getD "") config "emsdk" with
    | Except.error e => Except.error e
    | Except.ok em =>
      match resolveOpt (!args.urlPrefixVal.isEmpty) args.urlPrefixVal config "url_prefix" with
      | Except.error e => Except.error e
      | Except.ok up => Except.ok ⟨cp, em, up, args.pythonVersion, args.setupEmsdkVersion⟩

/-! ## Stage orchestration (`main` and `check_build_dir`, build.py 104-233)

The world state records which of the three build output directories
exist.  `check_build_dir` consumes one interactive response when its
directory exists and aborts unless that response is `"y"`.  `main`
then: optionally installs/activates a requested emsdk version, always
sources the emsdk environment and runs the two `embuilder` commands,
builds each stage only when its directory is missing (creating it), and
always runs the two post-processing steps.  The result is the ordered
action trace together with the final world, or `none` when the run
exits at a prompt.
-/

/-- Externally observable steps of one orchestrator run. -/
inductive BuildAct where
  | installEmsdk : String → BuildAct
  | activateEmsdk : String → BuildAct
  | sourceEmsdkEnv : BuildAct
  | embuilderCheck : BuildAct
  | embuilderPorts : BuildAct
  | buildCPython : BuildAct
  | buildWasmBrowser : BuildAct
  | buildWasmNode : BuildAct
  | browserFiles : BuildAct
  | nodeFiles : BuildAct
deriving DecidableEq

/-- Existence of the three build output directories. -/
structure World where
  buildDirHere : Bool
  browserDirHere : Bool
  nodeDirHere : Bool
deriving DecidableEq

/-- `check_build_dir`: when the directory exists, consume one prompt
response and continue only on `"y"`; otherwise pass through. -/
def check_build_dir (dirHere : Bool) (responses : List String) :
    Option (List String) :=
  if dirHere then
    match responses with
    | [] => none
    | r :: rest => if r = "y" then some rest else none
  else some responses

/-- Build-stage work: the actions the directory/flag guards are meant
to skip (installing or activating the toolchain and the three
`configure`/`make` builds), as opposed to the unconditional environment
steps and post-processing. -/
def isBuildWork : BuildAct → Bool
  | BuildAct.installEmsdk _ => true
  | BuildAct.activateEmsdk _ => true
  | BuildAct.buildCPython => true
  | BuildAct.buildWasmBrowser => true
  | BuildAct.buildWasmNode => true
  | _ => false

/-- `main` after configuration: guard the three directories, then run
the stages, skipping any whose directory exists, and always run
post-processing. -/
def mainRun (setupVersion : Option String) (w : World) (responses : List String) :
    Option (List BuildAct × World) := do
  let rs1 ← check_build_dir w.buildDirHere responses
  let rs2 ← check_build_dir w.browserDirHere rs1
  let _ ← check_build_dir w.nodeDirHere rs2
  let setupActs := match setupVersion with
    | some v => [BuildAct.installEmsdk v, BuildAct.activateEmsdk v]
    | none => []
  let envActs := [BuildAct.sourceEmsdkEnv, BuildAct.embuilderCheck, BuildAct.embuilderPorts]
  let s1 := if w.buildDirHere then ([], w)
    else ([BuildAct.buildCPython], { w with buildDirHere := true })
  let s2 := if s1.2.browserDirHere then ([], s1.2)
    else ([BuildAct.buildWasmBrowser], { s1.2 with browserDirHere := true })
  let s3 := if s2.2.nodeDirHere then ([], s2.2)
    else ([BuildAct.buildWasmNode], { s2.2 with nodeDirHere := true })
  return (setupActs ++ envActs ++ s1.1 ++ s2.1 ++ s3.1
    ++ [BuildAct.browserFiles, BuildAct.nodeFiles], s3.2)

/-- The whole entry point: resolve configuration first (`sys.exit`
aborts the run before any stage), then orchestrate. -/
def mainWithConfig (args : CliArgs) (config : List (String × String))
    (w : World) (responses : List String) : Except String (List BuildAct × World) :=
  match parse_args args config with
  | Except.error e => Except.error e
  | Except.ok r =>
    match mainRun r.setupEmsdkVersion w responses with
    | none => Except.error "Exiting"
    | some out => Except.ok out

/-! ## Claims about configuration resolution and orchestration -/

/-- Decompose a successful `parse_args` into its per-option
resolutions. -/
theorem parse_args_ok_parts (args : CliArgs) (config : List (String × String))
    (r : ResolvedArgs) (hok : parse_args args config = Except.ok r) :
    resolveOpt args.cpython.isSome (args.cpython.getD "") config "cpython"
      = Except.ok r.cpython ∧
    resolveOpt args.emsdk.isSome (args.emsdk.getD "") config "emsdk"
      = Except.ok r.emsdk ∧
    resolveOpt (!args.urlPrefixVal.isEmpty) args.urlPrefixVal config "url_prefix"
      = Except.ok r.urlPrefixVal := by
  unfold parse_args at hok
  split at hok
  · exact absurd hok (by simp)
  · split at hok
    · exact absurd hok (by simp)
    · split at hok
      · exact absurd hok (by simp)
      · cases hok
        simp_all

/-- C5: whenever resolution succeeds, a value supplied on the command
line wins over a conflicting value in the configuration file, for each
of the three required options (for `url_prefix`, "supplied" means a
non-empty string, since the code's falsy test cannot distinguish an
explicit empty value from the absent default). -/
theorem parse_args_cli_precedence (args : CliArgs) (config : List (String × String))
    (r : ResolvedArgs) (hok : parse_args args config = Except.ok r) :
    (∀ v w, args.cpython = some v → assocFind config "cpython" = some w →
      r.cpython = v) ∧
    (∀ v w, args.emsdk = some v → assocFind config "emsdk" = some w →
      r.emsdk = v) ∧
    (∀ w, args.urlPrefixVal ≠ "" → assocFind config "url_prefix" = some w →
      r.urlPrefixVal = args.urlPrefixVal) := by
  obtain ⟨hcp, hem, hup⟩ := parse_args_ok_parts args config r hok
  refine ⟨fun v w hv _ => ?_, fun v w hv _ => ?_, fun w hv _ => ?_⟩
  · rw [hv] at hcp
    simp [resolveOpt] at hcp
    exact hcp.symm
  · rw [hv] at hem
    simp [resolveOpt] at hem
    exact hem.symm
  · have ht : args.urlPrefixVal.isEmpty = false := by
      cases he : args.urlPrefixVal.isEmpty
      · rfl
      · exact absurd ((String.isEmpty_iff _).mp he) hv
    rw [ht] at hup
    simp [resolveOpt] at hup
    exact hup.symm

/-- Witness for C5: with all three options on the command line and
conflicting configuration-file values, the CLI values are resolved. -/
theorem parse_args_cli_precedence_witness :
    (⟨"/cli/cp", "/cli/em", "/cli/up/", none, none⟩ : ResolvedArgs).cpython
      = "/cli/cp" ∧
    (⟨"/cli/cp", "/cli/em", "/cli/up/", none, none⟩ : ResolvedArgs).emsdk
      = "/cli/em" ∧
    (⟨"/cli/cp", "/cli/em", "/cli/up/", none, none⟩ : ResolvedArgs).urlPrefixVal
      = "/cli/up/" := by
  have h := parse_args_cli_precedence
    ⟨some "/cli/cp", some "/cli/em", "/cli/up/", none, none⟩
    [("cpython", "/cfg/cp"), ("emsdk", "/cfg/em"), ("url_prefix", "/cfg/up/")]
    ⟨"/cli/cp", "/cli/em", "/cli/up/", none, none⟩ rfl
  exact ⟨h.1 "/cli/cp" "/cfg/cp" rfl (by decide),
    h.2.1 "/cli/em" "/cfg/em" rfl (by decide),
    h.2.2 "/cfg/up/" (by decide) (by decide)⟩

/-- C6: a required option absent from both the command line and the
configuration file makes resolution exit with the `Must supply ...`
message for that option before any stage runs (the run produces an
error and no action trace), and each message names both the CLI flag
and the configuration-file key. -/
theorem parse_args_missing_option (args : CliArgs) (config : List (String × String))
    (w : World) (rs : List String) :
    (args.cpython = none → assocFind config "cpython" = none →
      mainWithConfig args config w rs = Except.error (missingMsg "cpython")) ∧
    (∀ v, args.cpython = some v → args.emsdk = none →
      assocFind config "emsdk" = none →
      mainWithConfig args config w rs = Except.error (missingMsg "emsdk")) ∧
    (∀ cv ev, args.cpython = some cv → args.emsdk = some ev →
      args.urlPrefixVal = "" → assocFind config "url_prefix" = none →
      mainWithConfig args config w rs = Except.error (missingMsg "url_prefix")) ∧
    (containsStr (missingMsg "cpython") "--cpython" = true ∧
      containsStr (missingMsg "cpython") "cpython" = true) ∧
    (containsStr (missingMsg "emsdk") "--emsdk" = true ∧
      containsStr (missingMsg "emsdk") "emsdk" = true) ∧
    (containsStr (missingMsg "url_prefix") "--url-prefix" = true ∧
      containsStr (missingMsg "url_prefix") "url_prefix" = true) := by
  refine ⟨fun h1 h2 => ?_, fun v h1 h2 h3 => ?_, fun cv ev h1 h2 h3 h4 => ?_,
    ⟨by decide, by decide⟩, ⟨by decide, by decide⟩, ⟨by decide, by decide⟩⟩
  · simp [mainWithConfig, parse_args, resolveOpt, h1, h2]
  · simp [mainWithConfig, parse_args, resolveOpt, h1, h2, h3]
  · have hie : ("" : String).isEmpty = true := rfl
    simp [mainWithConfig, parse_args, resolveOpt, h1, h2, h3, h4, hie]

/-- C2 as written fails on the code: with `--url-prefix` left at its
empty default and no `url_prefix` key in the configuration file,
resolution does not succeed with an empty prefix — the falsy check
`if not getattr(args, option)` sends the empty string down the
missing-option path and the script exits. -/
theorem url_prefix_empty_default_rejected :
    parse_args ⟨some "/cp", some "/em", "", none, none⟩ []
      = Except.error (missingMsg "url_prefix") ∧
    (parse_args ⟨some "/cp", some "/em", "", none, none⟩ []).isOk = false := by
  exact ⟨rfl, rfl⟩

/-- C2 amended: when the url prefix is empty on the command line, the
configuration file has no `url_prefix` key, and the other two required
options are supplied, resolution fails fatally with the message naming
`--url-prefix` and `url_prefix` (the option is effectively required). -/
theorem url_prefix_empty_default_exits (args : CliArgs)
    (config : List (String × String)) (cv ev : String)
    (hcp : args.cpython = some cv) (hem : args.emsdk = some ev)
    (hup : args.urlPrefixVal = "") (hcfg : assocFind config "url_prefix" = none) :
    parse_args args config = Except.error (missingMsg "url_prefix") := by
  have hie : ("" : String).isEmpty = true := rfl
  simp [parse_args, resolveOpt, hcp, hem, hup, hcfg, hie]

/-- Witness for the amended C2 at concrete arguments. -/
theorem url_prefix_empty_default_exits_witness :
    parse_args ⟨some "/a", some "/b", "", none, none⟩ [("cpython", "/x")]
      = Except.error (missingMsg "url_prefix") :=
  url_prefix_empty_default_exits ⟨some "/a", some "/b", "", none, none⟩
    [("cpython", "/x")] "/a" "/b" rfl rfl rfl rfl

/-- C4: when all three build directories already exist (and no emsdk
setup version was requested), a run that confirms reuse performs no
build-stage work, still runs both post-processing steps, and leaves the
world unchanged — so a second run behaves identically. -/
theorem orchestrator_skips_and_postprocesses (w : World) (t₁ t₂ : List String)
    (h1 : w.buildDirHere = true) (h2 : w.browserDirHere = true)
    (h3 : w.nodeDirHere = true) :
    ∃ acts : List BuildAct,
      mainRun none w ("y" :: "y" :: "y" :: t₁) = some (acts, w) ∧
      acts.filter isBuildWork = [] ∧
      BuildAct.browserFiles ∈ acts ∧ BuildAct.nodeFiles ∈ acts ∧
      mainRun none w ("y" :: "y" :: "y" :: t₂) = some (acts, w) := by
  obtain ⟨b1, b2, b3⟩ := w
  simp only at h1 h2 h3
  subst h1 h2 h3
  refine ⟨[BuildAct.sourceEmsdkEnv, BuildAct.embuilderCheck, BuildAct.embuilderPorts,
    BuildAct.browserFiles, BuildAct.nodeFiles], ?_, by decide, by decide, by decide, ?_⟩
  · simp [mainRun, check_build_dir]
  · simp [mainRun, check_build_dir]

/-- Witness for C4 with all directories present and empty trailing
input. -/
theorem orchestrator_skips_and_postprocesses_witness :
    ∃ acts : List BuildAct,
      mainRun none ⟨true, true, true⟩ ["y", "y", "y"] = some (acts, ⟨true, true, true⟩) ∧
      acts.filter isBuildWork = [] ∧
      BuildAct.browserFiles ∈ acts ∧ BuildAct.nodeFiles ∈ acts ∧
      mainRun none ⟨true, true, true⟩ ["y", "y", "y"] = some (acts, ⟨true, true, true⟩) :=
  orchestrator_skips_and_postprocesses ⟨true, true, true⟩ [] [] rfl rfl rfl

/-! ## Runtime packaging (`prepare_node_files`, build.py lines 180-190)

Paths are modelled as an absolute-flag plus components.  The function
walks `python_build_dir / "Lib"` recursively, then `wasm_build_dir`
recursively, writes only regular files, and stores each entry under
`path.relative_to(python_build_dir)` (raising if a walked path is not
below the base, which the `Option` models).
-/

/-- A filesystem path: whether it is anchored at the root, plus its
components. -/
structure PPath where
  anchored : Bool
  comps : List String
deriving DecidableEq

/-- A filesystem object seen during the walk: its path and whether it
is a regular file (`is_file()`). -/
structure FsEntry where
  path : PPath
  isFile : Bool
deriving DecidableEq

/-- Is `p` a proper descendant of `dir` (what `dir.rglob("*")` yields)? -/
def strictlyUnder (dir p : PPath) : Bool :=
  p.anchored = dir.anchored && dir.comps.isPrefixOf p.comps
    && decide (dir.comps.length < p.comps.length)

/-- `dir.rglob("*")` over a directory listing: the entries properly
below `dir`, in listing order. -/
def rglob (fs : List FsEntry) (dir : PPath) : List FsEntry :=
  fs.filter (fun e => strictlyUnder dir e.path)

/-- `p.relative_to(base)`: strip the base prefix, yielding a relative
path; fails when `p` is not below `base`. -/
def relative_to (p base : PPath) : Option PPath :=
  if p.anchored = base.anchored && base.comps.isPrefixOf p.comps then
    some ⟨false, p.comps.drop base.comps.length⟩
  else none

/-- Append one component to a directory path (`dir / name`). -/
def childDir (base : PPath) (name : String) : PPath :=
  ⟨base.anchored, base.comps ++ [name]⟩

/-- The archive writes for a walked listing: skip non-files, store each
file under its path relative to `base`, failing if any file is outside
`base`.  Each write records (source path, stored path). -/
def writeEntries (base : PPath) : List FsEntry → Option (List (PPath × PPath))
  | [] => some []
  | e :: rest =>
    if e.isFile then
      match relative_to e.path base, writeEntries base rest with
      | some rel, some tail => some ((e.path, rel) :: tail)
      | _, _ => none
    else writeEntries base rest

/-- `prepare_node_files`: walk `python_build_dir / "Lib"` and
`wasm_build_dir`, archiving every contained file relative to
`python_build_dir`. -/
def prepare_node_files (fs : List FsEntry) (pythonBuildDir wasmBuildDir : PPath) :
    Option (List (PPath × PPath)) :=
  writeEntries pythonBuildDir
    (rglob fs (childDir pythonBuildDir "Lib") ++ rglob fs wasmBuildDir)

/-- A boolean prefix witnesses a decomposition of the longer list. -/
theorem isPrefixOf_eq_append (l₁ : List String) :
    ∀ l₂ : List String, l₁.isPrefixOf l₂ = true → l₂ = l₁ ++ l₂.drop l₁.length := by
  induction l₁ with
  | nil => intro l₂ _; simp
  | cons a t ih =>
    intro l₂ h
    cases l₂ with
    | nil => simp [List.isPrefixOf] at h
    | cons b t₂ =>
      simp only [List.isPrefixOf, Bool.and_eq_true, beq_iff_eq] at h
      obtain ⟨hab, ht⟩ := h
      subst hab
      have hh := ih t₂ ht
      show a :: t₂ = a :: (t ++ t₂.drop t.length)
      exact congrArg (List.cons a) hh

/-- Every successful write holds a file from the walked listing, stored
relative to base. -/
theorem writeEntries_spec (base : PPath) :
    ∀ (l : List FsEntry) (out : List (PPath × PPath)),
      writeEntries base l = some out →
      ∀ pr ∈ out, (∃ e ∈ l, e.path = pr.1 ∧ e.isFile = true) ∧
        relative_to pr.1 base = some pr.2 := by
  intro l
  induction l with
  | nil =>
    intro out h pr hpr
    simp [writeEntries] at h
    subst h
    simp at hpr
  | cons e rest ih =>
    intro out h pr hpr
    by_cases hf : e.isFile = true
    · simp [writeEntries, hf] at h
      cases hrel : relative_to e.path base with
      | none => rw [hrel] at h; simp at h
      | some rel =>
        rw [hrel] at h
        cases htail : writeEntries base rest with
        | none => rw [htail] at h; simp at h
        | some tail =>
          rw [htail] at h
          simp at h
          subst h
          rcases List.mem_cons.mp hpr with hpr1 | hpr2
          · subst hpr1
            exact ⟨⟨e, List.mem_cons_self e rest, rfl, hf⟩, hrel⟩
          · obtain ⟨⟨e', he', hp', hfile'⟩, hr'⟩ := ih tail htail pr hpr2
            exact ⟨⟨e', List.mem_cons_of_mem e he', hp', hfile'⟩, hr'⟩
    · have hf' : e.isFile = false := by
        cases hh : e.isFile
        · rfl
        · exact absurd hh hf
      simp [writeEntries, hf'] at h
      obtain ⟨⟨e', he', hp', hfile'⟩, hr'⟩ := ih out h pr hpr
      exact ⟨⟨e', List.mem_cons_of_mem e he', hp', hfile'⟩, hr'⟩

/-- C7: every entry the runtime packager writes is a regular file drawn
from the walked trees, its stored path is the file's path relative to
the native build root (the base components prepended to the stored
components reconstruct the source path), and the stored path carries no
absolute anchor. -/
theorem prepare_node_files_relative_paths (fs : List FsEntry)
    (pythonBuildDir wasmBuildDir : PPath) (out : List (PPath × PPath))
    (h : prepare_node_files fs pythonBuildDir wasmBuildDir = some out) :
    ∀ pr ∈ out,
      pr.2.anchored = false ∧
      pr.1.comps = pythonBuildDir.comps ++ pr.2.comps ∧
      (∃ e ∈ fs, e.path = pr.1 ∧ e.isFile = true) := by
  intro pr hpr
  obtain ⟨⟨e, he, hp, hfile⟩, hrel⟩ :=
    writeEntries_spec pythonBuildDir _ out h pr hpr
  have hmem : e ∈ fs := by
    rcases List.mem_append.mp he with h1 | h1
    · exact (List.mem_filter.mp h1).1
    · exact (List.mem_filter.mp h1).1
  unfold relative_to at hrel
  split at hrel
  · rename_i hcond
    have hpre : pythonBuildDir.comps.isPrefixOf pr.1.comps = true :=
      (Bool.and_eq_true _ _ |>.mp hcond).2
    have heq := isPrefixOf_eq_append pythonBuildDir.comps pr.1.comps hpre
    have hrel' := Option.some.inj hrel
    refine ⟨?_, ?_, ⟨e, hmem, hp, hfile⟩⟩
    · rw [← hrel']
    · rw [← hrel']
      exact heq
  · exact absurd hrel (by simp)

/-- Witness for C7: a listing with a library file, a subdirectory and a
wasm build file; both files land under relative stored paths. -/
theorem prepare_node_files_relative_paths_witness :
    (⟨false, ["Lib", "os.py"]⟩ : PPath).anchored = false ∧
    (⟨true, ["cp", "Lib", "os.py"]⟩ : PPath).comps
      = (⟨true, ["cp"]⟩ : PPath).comps ++ (⟨false, ["Lib", "os.py"]⟩ : PPath).comps ∧
    (∃ e ∈ [(⟨⟨true, ["cp", "Lib", "os.py"]⟩, true⟩ : FsEntry),
        ⟨⟨true, ["cp", "Lib", "sub"]⟩, false⟩,
        ⟨⟨true, ["cp", "bn", "python.wasm"]⟩, true⟩],
      e.path = (⟨true, ["cp", "Lib", "os.py"]⟩ : PPath) ∧ e.isFile = true) :=
  prepare_node_files_relative_paths
    [⟨⟨true, ["cp", "Lib", "os.py"]⟩, true⟩,
     ⟨⟨true, ["cp", "Lib", "sub"]⟩, false⟩,
     ⟨⟨true, ["cp", "bn", "python.wasm"]⟩, true⟩]
    ⟨true, ["cp"]⟩ ⟨true, ["cp", "bn"]⟩
    [(⟨true, ["cp", "Lib", "os.py"]⟩, ⟨false, ["Lib", "os.py"]⟩),
     (⟨true, ["cp", "bn", "python.wasm"]⟩, ⟨false, ["bn", "python.wasm"]⟩)]
    (by decide)
    (⟨true, ["cp", "Lib", "os.py"]⟩, ⟨false, ["Lib", "os.py"]⟩)
    (by decide)

/-! ## Environment import (`shell_source`, build.py lines 38-47)

The captured `env` output is split into lines
(`str.splitlines`), each line is split at its FIRST `=` only
(`line.split("=", 1)`); a line with no `=` makes the `dict(...)`
constructor raise before `os.environ.update` runs.  The resulting dict
(later duplicates overwrite earlier ones) is then merged into the
process environment, overwriting existing keys.  Environments and the
dict are association lists; `setKey` is `d[k] = v`.
-/

/-- `str.splitlines` for newline-separated text: lines between `\n`
terminators, with a final unterminated segment kept if non-empty. -/
def splitlinesAux : List Char → List Char → List String
  | [], [] => []
  | [], acc => [String.mk acc.reverse]
  | '\n' :: rest, acc => String.mk acc.reverse :: splitlinesAux rest []
  | c :: rest, acc => splitlinesAux rest (c :: acc)

/-- Split a string into its lines. -/
def splitlines (s : String) : List String := splitlinesAux s.data []

/-- Split a character list at its first `'='`, if any. -/
def splitEqAux : List Char → Option (List Char × List Char)
  | [] => none
  | c :: cs =>
    if c = '=' then some ([], cs)
    else
      match splitEqAux cs with
      | some (k, v) => some (c :: k, v)
      | none => none

/-- `line.split("=", 1)` as a key/value pair; `none` when the line has
no `=` (the case where `dict(...)` raises `ValueError`). -/
def parseEnvLine (line : String) : Option (String × String) :=
  match splitEqAux line.data with
  | some (k, v) => some (String.mk k, String.mk v)
  | none => none

/-- Parse every line, failing if any line lacks an `=`. -/
def parseLines : List String → Option (List (String × String))
  | [] => some []
  | line :: rest =>
    match parseEnvLine line, parseLines rest with
    | some kv, some tail => some (kv :: tail)
    | _, _ => none

/-- `d[k] = v` on an association list: replace the first binding of `k`
in place, or append a new binding. -/
def setKey : List (String × String) → String → String → List (String × String)
  | [], k, v => [(k, v)]
  | (k', v') :: rest, k, v =>
    if k' = k then (k, v) :: rest else (k', v') :: setKey rest k v

/-- `dict(pairs)`: later duplicates overwrite earlier ones. -/
def buildDict (pairs : List (String × String)) : List (String × String) :=
  pairs.foldl (fun d kv => setKey d kv.1 kv.2) []

/-- `os.environ.update(d)`: set every binding of `d` in order,
overwriting existing keys. -/
def envUpdate (env d : List (String × String)) : List (String × String) :=
  d.foldl (fun e kv => setKey e kv.1 kv.2) env

/-- `shell_source`: parse the environment snapshot and merge it into
`env`; `none` models the `ValueError` raised before anything is merged
when some line has no `=`. -/
def shell_source (output : String) (env : List (String × String)) :
    Option (List (String × String)) :=
  match parseLines (splitlines output) with
  | none => none
  | some pairs => some (envUpdate env (buildDict pairs))

/-- Option fallback used to state lookup facts. -/
def orO (a b : Option String) : Option String :=
  match a with
  | some v => some v
  | none => b

/-- The value of the LAST binding of `key` in a pair list, if any. -/
def lastAssoc : List (String × String) → String → Option String
  | [], _ => none
  | (k, v) :: rest, key =>
    orO (lastAssoc rest key) (if key = k then some v else none)

/-- No binding of `key` at all. -/
def FreshKey (key : String) (d : List (String × String)) : Prop :=
  ∀ p ∈ d, p.1 ≠ key

/-- Keys are pairwise distinct (the invariant of a Python dict). -/
def NodupKeys : List (String × String) → Prop
  | [] => True
  | kv :: rest => FreshKey kv.1 rest ∧ NodupKeys rest

theorem orO_none_right (a : Option String) : orO a none = a := by
  cases a <;> rfl

theorem assocFind_setKey (env : List (String × String)) (k v key : String) :
    assocFind (setKey env k v) key
      = if key = k then some v else assocFind env key := by
  induction env with
  | nil => simp [setKey, assocFind]
  | cons p rest ih =>
    obtain ⟨k', v'⟩ := p
    by_cases h1 : k' = k
    · subst h1
      by_cases h2 : key = k' <;> simp [setKey, assocFind, h2]
    · by_cases h2 : key = k'
      · have h3 : ¬ (key = k) := fun hh => h1 (h2.symm.trans hh)
        simp [setKey, assocFind, h1, h2, h3]
      · simp [setKey, assocFind, h1, h2, ih]

theorem assocFind_foldl_setKey (l : List (String × String)) :
    ∀ (env : List (String × String)) (key : String),
      assocFind (l.foldl (fun e kv => setKey e kv.1 kv.2) env) key
        = orO (lastAssoc l key) (assocFind env key) := by
  induction l with
  | nil => intro env key; simp [lastAssoc, orO]
  | cons kv rest ih =>
    intro env key
    obtain ⟨k, v⟩ := kv
    simp only [List.foldl_cons]
    rw [ih (setKey env k v) key, assocFind_setKey]
    cases hl : lastAssoc rest key with
    | some w => simp [lastAssoc, orO, hl]
    | none =>
      by_cases hk : key = k
      · subst hk
        simp [lastAssoc, orO, hl]
      · simp [lastAssoc, orO, hl, hk]

theorem lastAssoc_none_of_fresh (key : String) :
    ∀ d : List (String × String), FreshKey key d → lastAssoc d key = none := by
  intro d
  induction d with
  | nil => intro _; rfl
  | cons p rest ih =>
    intro hf
    obtain ⟨k, v⟩ := p
    have hk : k ≠ key := hf (k, v) (List.mem_cons_self _ _)
    have hk' : ¬ (key = k) := fun hh => hk hh.symm
    have hr := ih (fun p hp => hf p (List.mem_cons_of_mem _ hp))
    simp [lastAssoc, hr, hk', orO]

theorem lastAssoc_eq_assocFind (d : List (String × String)) (hnd : NodupKeys d)
    (key : String) : lastAssoc d key = assocFind d key := by
  induction d with
  | nil => rfl
  | cons p rest ih =>
    obtain ⟨k, v⟩ := p
    obtain ⟨hfresh, hrest⟩ := hnd
    by_cases hk : key = k
    · subst hk
      have hnone : lastAssoc rest key = none :=
        lastAssoc_none_of_fresh key rest hfresh
      simp [lastAssoc, assocFind, hnone, orO]
    · simp [lastAssoc, assocFind, hk, orO_none_right, ih hrest]

theorem mem_setKey (d : List (String × String)) (k v : String) :
    ∀ p ∈ setKey d k v, p ∈ d ∨ p = (k, v) := by
  induction d with
  | nil => intro p hp; simp [setKey] at hp; exact Or.inr hp
  | cons q rest ih =>
    obtain ⟨k', v'⟩ := q
    intro p hp
    by_cases h1 : k' = k
    · simp [setKey, h1] at hp
      rcases hp with hp | hp
      · exact Or.inr (by simp [hp])
      · exact Or.inl (List.mem_cons_of_mem _ hp)
    · simp only [setKey, if_neg h1] at hp
      rcases List.mem_cons.mp hp with hp | hp
      · exact Or.inl (hp ▸ List.mem_cons_self _ _)
      · rcases ih p hp with hin | heq
        · exact Or.inl (List.mem_cons_of_mem _ hin)
        · exact Or.inr heq

theorem setKey_nodup (d : List (String × String)) (k v : String)
    (hnd : NodupKeys d) : NodupKeys (setKey d k v) := by
  induction d with
  | nil =>
    exact show FreshKey k [] ∧ NodupKeys [] from
      ⟨fun p hp => absurd hp (List.not_mem_nil p), trivial⟩
  | cons q rest ih =>
    obtain ⟨k', v'⟩ := q
    obtain ⟨hfresh, hrest⟩ := hnd
    by_cases h1 : k' = k
    · subst h1
      simp only [setKey, if_pos rfl]
      exact show FreshKey k' rest ∧ NodupKeys rest from ⟨hfresh, hrest⟩
    · simp only [setKey, if_neg h1]
      refine show FreshKey k' (setKey rest k v) ∧ NodupKeys (setKey rest k v) from
        ⟨?_, ih hrest⟩
      intro p hp
      rcases mem_setKey rest k v p hp with hin | heq
      · exact hfresh p hin
      · subst heq
        exact fun hh => h1 hh.symm

theorem buildDict_nodup_aux (l : List (String × String)) :
    ∀ env, NodupKeys env →
      NodupKeys (l.foldl (fun e kv => setKey e kv.1 kv.2) env) := by
  induction l with
  | nil => intro env h; exact h
  | cons kv rest ih =>
    intro env h
    simp only [List.foldl_cons]
    exact ih (setKey env kv.1 kv.2) (setKey_nodup env kv.1 kv.2 h)

theorem buildDict_nodup (pairs : List (String × String)) :
    NodupKeys (buildDict pairs) :=
  buildDict_nodup_aux pairs [] trivial

theorem splitEqAux_spec :
    ∀ (cs k v : List Char), splitEqAux cs = some (k, v) →
      cs = k ++ '=' :: v ∧ ∀ c ∈ k, c ≠ '=' := by
  intro cs
  induction cs with
  | nil => intro k v h; simp [splitEqAux] at h
  | cons c rest ih =>
    intro k v h
    by_cases hc : c = '='
    · simp [splitEqAux, hc] at h
      obtain ⟨hk, hv⟩ := h
      subst hk
      subst hv
      exact ⟨by simp [hc], by simp⟩
    · simp only [splitEqAux, if_neg hc] at h
      cases hrec : splitEqAux rest with
      | none => rw [hrec] at h; simp at h
      | some kv =>
        obtain ⟨k', v'⟩ := kv
        rw [hrec] at h
        simp at h
        obtain ⟨hk, hv⟩ := h
        subst hk
        subst hv
        obtain ⟨heq, hall⟩ := ih k' v' hrec
        refine ⟨by simp [heq], ?_⟩
        intro x hx
        rcases List.mem_cons.mp hx with hx | hx
        · exact hx ▸ hc
        · exact hall x hx

theorem parseEnvLine_spec (line k v : String)
    (h : parseEnvLine line = some (k, v)) :
    line = k ++ "=" ++ v ∧ k.data.all (fun c => c != '=') = true := by
  obtain ⟨cs⟩ := line
  unfold parseEnvLine at h
  cases hs : splitEqAux cs with
  | none => rw [hs] at h; simp at h
  | some kv =>
    obtain ⟨kc, vc⟩ := kv
    rw [hs] at h
    simp at h
    obtain ⟨hk, hv⟩ := h
    obtain ⟨heq, hall⟩ := splitEqAux_spec cs kc vc hs
    constructor
    · rw [← hk, ← hv]
      show String.mk cs = String.mk ((kc ++ ('=' :: List.nil)) ++ vc)
      rw [heq]
      simp
    · rw [← hk]
      simp only [List.all_eq_true]
      intro c hc
      simpa using hall c hc

theorem splitEqAux_none (cs : List Char) (h : ∀ c ∈ cs, c ≠ '=') :
    splitEqAux cs = none := by
  induction cs with
  | nil => rfl
  | cons c rest ih =>
    have hc : c ≠ '=' := h c (List.mem_cons_self _ _)
    have hr := ih (fun x hx => h x (List.mem_cons_of_mem _ hx))
    simp [splitEqAux, hc, hr]

theorem parseLines_none_of_mem :
    ∀ (lines : List String) (line : String), line ∈ lines →
      parseEnvLine line = none → parseLines lines = none := by
  intro lines
  induction lines with
  | nil => intro line h; simp at h
  | cons l rest ih =>
    intro line hmem hnone
    rcases List.mem_cons.mp hmem with heq | hmem'
    · subst heq
      simp [parseLines, hnone]
    · have hr := ih line hmem' hnone
      simp only [parseLines, hr]
      cases parseEnvLine l <;> rfl

/-- C8: every snapshot line is split into its key/value pair at the
first `=` only — the key contains no `=` and the value keeps any
further `=` characters — and merging leaves, for every key, the last
snapshot value when the snapshot binds it (overwriting the prior
environment) and the prior value otherwise. -/
theorem shell_source_first_eq_merge (output : String)
    (env newEnv pairs : List (String × String))
    (hp : parseLines (splitlines output) = some pairs)
    (hs : shell_source output env = some newEnv) :
    (∀ line k v, line ∈ splitlines output → parseEnvLine line = some (k, v) →
      line = k ++ "=" ++ v ∧ k.data.all (fun c => c != '=') = true) ∧
    (∀ key, assocFind newEnv key = orO (lastAssoc pairs key) (assocFind env key)) := by
  constructor
  · intro line k v _ hpe
    exact parseEnvLine_spec line k v hpe
  · intro key
    unfold shell_source at hs
    rw [hp] at hs
    have hnew : newEnv = envUpdate env (buildDict pairs) := (Option.some.inj hs).symm
    subst hnew
    unfold envUpdate
    rw [assocFind_foldl_setKey]
    have h1 : lastAssoc (buildDict pairs) key = assocFind (buildDict pairs) key :=
      lastAssoc_eq_assocFind (buildDict pairs) (buildDict_nodup pairs) key
    have h2 : assocFind (buildDict pairs) key = lastAssoc pairs key := by
      unfold buildDict
      rw [assocFind_foldl_setKey pairs [] key]
      exact orO_none_right _
    rw [h1, h2]

/-- Witness for C8: the snapshot `A=1=2`, `B=3`, `A=9` over an
environment already binding `A`: the first line splits only at its
first `=`, and lookup of `A` follows the merge rule. -/
theorem shell_source_first_eq_merge_witness :
    ("A=1=2" : String) = "A" ++ "=" ++ "1=2" ∧
    ("A" : String).data.all (fun c => c != '=') = true ∧
    assocFind (envUpdate [("A", "0"), ("C", "7")]
        (buildDict [("A", "1=2"), ("B", "3"), ("A", "9")])) "A"
      = orO (lastAssoc [("A", "1=2"), ("B", "3"), ("A", "9")] "A")
          (assocFind [("A", "0"), ("C", "7")] "A") := by
  have h := shell_source_first_eq_merge "A=1=2\nB=3\nA=9" [("A", "0"), ("C", "7")]
    (envUpdate [("A", "0"), ("C", "7")]
      (buildDict [("A", "1=2"), ("B", "3"), ("A", "9")]))
    [("A", "1=2"), ("B", "3"), ("A", "9")] rfl rfl
  obtain ⟨hsplit, hmerge⟩ := h
  obtain ⟨e1, e2⟩ := hsplit "A=1=2" "A" "1=2" (by decide) rfl
  exact ⟨e1, e2, hmerge "A"⟩

/-- C10: a snapshot line without any `=` makes the import fail (the
`dict(...)` constructor raises) and nothing is merged into the
environment — the run produces no updated environment at all. -/
theorem shell_source_fails_without_eq (output line : String)
    (env : List (String × String)) (hmem : line ∈ splitlines output)
    (hno : line.data.all (fun c => c != '=') = true) :
    shell_source output env = none := by
  have hchars : ∀ c ∈ line.data, c ≠ '=' := by
    intro c hc
    have hb := List.all_eq_true.mp hno c hc
    simpa using hb
  have hpe : parseEnvLine line = none := by
    unfold parseEnvLine
    rw [splitEqAux_none line.data hchars]
  have hall := parseLines_none_of_mem (splitlines output) line hmem hpe
  unfold shell_source
  rw [hall]

/-- Witness for C10: a middle line `BROKEN` without `=` fails the whole
import. -/
theorem shell_source_fails_without_eq_witness :
    shell_source "A=1\nBROKEN\nB=2" [("X", "1")] = none :=
  shell_source_fails_without_eq "A=1\nBROKEN\nB=2" "BROKEN" [("X", "1")]
    (by decide) (by decide)
